import Mathlib

set_option maxHeartbeats 1000000

/-!
Verification development for the company-profile-builder backend.

This file gives a shallow embedding of the orchestration core of the
backend (the job-discovery agent, the LinkedIn/profile agent, the
client-summary agent, the langgraph pipeline nodes of agent_flow.py and
the job-store driver of app.py), and proves or refutes the specification
claims about them.

Modelling conventions:
- every external call (search, scrape, generation, extraction, polling)
  is an oracle value supplied through an environment structure; an
  outcome of `Except.error msg` models the Python call raising an
  exception, `Except.ok v` models it returning `v`;
- Python `None`-able values are `Option`; Python truthiness of strings
  (`None` and `""` are falsy) is `truthyOpt`;
- JSON dictionary fields where the code distinguishes a missing key from
  an explicit `null` value are modelled as `Option (Option _)`
  (outer = key present, inner = value non-null); fields where the two are
  treated identically by every code path used are collapsed to `Option _`.
-/

/-- Python truthiness of an optional string: `None` and `""` are falsy. -/
def truthyOpt : Option String → Bool
  | none => false
  | some s => decide (s ≠ "")

/-- Occurrence of one character list inside another (substring search). -/
def charsContain (needle : List Char) : List Char → Bool
  | [] => needle.isEmpty
  | c :: rest => needle.isPrefixOf (c :: rest) || charsContain needle rest

/-- Python substring containment `pat in hay`. -/
def pyContains (hay pat : String) : Bool := charsContain pat.toList hay.toList

/-- Python `s.startswith(pat)`. -/
def pyStartsWith (s pat : String) : Bool := pat.toList.isPrefixOf s.toList

/-- ASCII whitespace, for the model of Python `str.strip`. -/
def isSpaceChar (c : Char) : Bool := c == ' ' || c == '\t' || c == '\n' || c == '\r'

/-- Model of Python `str.strip()`: drop whitespace at both ends. -/
def pyStrip (s : String) : String :=
  ⟨((s.toList.dropWhile isSpaceChar).reverse.dropWhile isSpaceChar).reverse⟩

/-- Python string slice `s[:n]`. -/
def pyTakeStr (n : Nat) (s : String) : String := ⟨s.toList.take n⟩

/-! ## Jobs Discovery Agent (src/backend/agents/jobs_agent.py) -/

/-- One job entry of the JSON returned by the extraction capability.
A missing key and an explicit null are both `none`: every code path used
(`job.get(...)` plus truthiness) treats them identically for these keys. -/
structure JobRec where
  title : Option String := none
  location : Option String := none
  url : Option String := none
deriving DecidableEq, Repr

/-- Outcome of one polling GET inside `JobsDiscoveryAgent._extract_jobs`:
either the request raised (network error, timeout or non-2xx via
`raise_for_status`), or a JSON body carrying a status string and the
decoded `data.jobs` array (missing pieces decode to `""`/`[]`). -/
inductive PollOutcome where
  | err (msg : String)
  | ok (status : String) (jobs : List JobRec)

/-- The filter applied in the `completed` branch of `_extract_jobs`
(lines 193-197): keep exactly the entries whose `url` is truthy, and
re-write the `url` key with `job.get('url', source_url)`. -/
def validJobs (sourceUrl : String) (jobsData : List JobRec) : List JobRec :=
  (jobsData.filter (fun j => truthyOpt j.url)).map
    (fun j => { j with url := some (j.url.getD sourceUrl) })

/-- A poll outcome that does not end the loop: an exception (the
`except` clause logs and continues), or a status other than
`completed`/`failed`/`cancelled` (e.g. `processing`, or a missing
status key). -/
def nonTerminal : PollOutcome → Bool
  | .err _ => true
  | .ok s _ => !(s == "completed" || s == "failed" || s == "cancelled")

/-- The polling loop of `_extract_jobs` (lines 168-214).  `attempt` is
the index of the next poll; the second argument is the remaining number
of attempts.  The fixed 5-second sleep before each poll has no
behavioural content in this model. -/
def pollLoop (poll : Nat → PollOutcome) (sourceUrl : String) : Nat → Nat → List JobRec
  | _, 0 => []
  | attempt, fuel + 1 =>
    match poll attempt with
    | .err _ => pollLoop poll sourceUrl (attempt + 1) fuel
    | .ok status data =>
      if status == "completed" then validJobs sourceUrl data
      else if status == "failed" || status == "cancelled" then []
      else pollLoop poll sourceUrl (attempt + 1) fuel

/-- `max_retries = 20` (line 167). -/
def maxRetries : Nat := 20

/-- The structured value the LLM returns when choosing a careers URL. -/
structure CareersChoice where
  url : String
  reasoning : String := ""

/-- Oracle outcomes of the external calls made by the jobs agent. -/
structure JobsEnv where
  /-- Tavily search plus LLM selection in `_find_careers_page`
  (an error models any exception inside its `try`). -/
  careersLLM : Except String CareersChoice := .error ""
  /-- The POST of `_extract_jobs`: error = the request raised;
  `ok oid` = the response JSON, with `oid = post_data.get('id')`. -/
  submit : Except String (Option String) := .error ""
  /-- The outcome of the polling GET at each attempt index. -/
  poll : Nat → PollOutcome := fun _ => .err ""

/-- `JobsDiscoveryAgent._extract_jobs` (lines 101-214). -/
def extractJobs (env : JobsEnv) (sourceUrl : String) : List JobRec :=
  match env.submit with
  | .error _ => []
  | .ok oid => if truthyOpt oid then pollLoop env.poll sourceUrl 0 maxRetries else []

/-- `JobsDiscoveryAgent._find_careers_page` (lines 54-99). -/
def findCareersPage (env : JobsEnv) : Option String :=
  match env.careersLLM with
  | .error _ => none
  | .ok r => if decide (r.url ≠ "") && pyStartsWith r.url "http" then some r.url else none

/-- Return value of `discover_jobs`. -/
structure DiscoverResult where
  job_listings : List JobRec
  careers_url : Option String := none
  error : Option String := none

/-- `JobsDiscoveryAgent.discover_jobs` (lines 31-51). -/
def discoverJobs (env : JobsEnv) : DiscoverResult :=
  match findCareersPage env with
  | none => { job_listings := [], error := some "No careers page found" }
  | some cu => { job_listings := extractJobs env cu, careers_url := some cu }

theorem validJobs_url (src : String) (jobs : List JobRec) :
    ∀ j ∈ validJobs src jobs, ∃ s, j.url = some s ∧ s ≠ "" := by
  intro j hj
  simp only [validJobs, List.mem_map, List.mem_filter] at hj
  obtain ⟨j0, ⟨_, hurl⟩, rfl⟩ := hj
  cases h : j0.url with
  | none => simp [truthyOpt, h] at hurl
  | some s =>
    refine ⟨s, by simp [h], ?_⟩
    simpa [truthyOpt, h] using hurl

theorem pollLoop_mem_url (poll : Nat → PollOutcome) (src : String) :
    ∀ fuel attempt j, j ∈ pollLoop poll src attempt fuel →
      ∃ s, j.url = some s ∧ s ≠ "" := by
  intro fuel
  induction fuel with
  | zero => intro a j hj; simp [pollLoop] at hj
  | succ n ih =>
    intro a j hj
    simp only [pollLoop] at hj
    split at hj
    · exact ih _ _ hj
    · rename_i s data heq
      split at hj
      · exact validJobs_url src data j hj
      · split at hj
        · simp at hj
        · exact ih _ _ hj

theorem pollLoop_completed (poll : Nat → PollOutcome) (src : String) :
    ∀ (i a fuel : Nat) (data : List JobRec), i < fuel →
      (∀ j, j < i → nonTerminal (poll (a + j)) = true) →
      poll (a + i) = .ok "completed" data →
      pollLoop poll src a fuel = validJobs src data := by
  intro i
  induction i with
  | zero =>
    intro a fuel data hlt _ hp
    cases fuel with
    | zero => omega
    | succ n =>
      rw [Nat.add_zero] at hp
      simp only [pollLoop, hp]
      simp
  | succ k ih =>
    intro a fuel data hlt hnt hp
    cases fuel with
    | zero => omega
    | succ n =>
      have h0 : nonTerminal (poll a) = true := by
        have := hnt 0 (by omega); simpa using this
      have hrec : pollLoop poll src (a + 1) n = validJobs src data :=
        ih (a + 1) n data (by omega)
          (fun j hj => by
            have := hnt (j + 1) (by omega)
            rwa [show a + (j + 1) = a + 1 + j by omega] at this)
          (by rw [show a + 1 + k = a + (k + 1) by omega]; exact hp)
      cases hpa : poll a with
      | err m => simp only [pollLoop, hpa]; exact hrec
      | ok s d =>
        rw [hpa] at h0
        simp only [nonTerminal, Bool.not_eq_true', Bool.or_eq_false_iff] at h0
        obtain ⟨⟨hs1, hs2⟩, hs3⟩ := h0
        simp only [pollLoop, hpa, hs1, hs2, hs3, Bool.or_self, Bool.false_eq_true, if_false]
        exact hrec

theorem pollLoop_failed (poll : Nat → PollOutcome) (src : String) :
    ∀ (i a fuel : Nat) (s : String) (data : List JobRec), i < fuel →
      (∀ j, j < i → nonTerminal (poll (a + j)) = true) →
      poll (a + i) = .ok s data → (s = "failed" ∨ s = "cancelled") →
      pollLoop poll src a fuel = [] := by
  intro i
  induction i with
  | zero =>
    intro a fuel s data hlt _ hp hterm
    cases fuel with
    | zero => omega
    | succ n =>
      rw [Nat.add_zero] at hp
      have hne : (s == "completed") = false := by
        rcases hterm with h | h <;> simp [h]
      have hor : (s == "failed" || s == "cancelled") = true := by
        rcases hterm with h | h <;> simp [h]
      simp only [pollLoop, hp, hne, hor, Bool.false_eq_true, if_false, if_true]
  | succ k ih =>
    intro a fuel s data hlt hnt hp hterm
    cases fuel with
    | zero => omega
    | succ n =>
      have h0 : nonTerminal (poll a) = true := by
        have := hnt 0 (by omega); simpa using this
      have hrec : pollLoop poll src (a + 1) n = [] :=
        ih (a + 1) n s data (by omega)
          (fun j hj => by
            have := hnt (j + 1) (by omega)
            rwa [show a + (j + 1) = a + 1 + j by omega] at this)
          (by rw [show a + 1 + k = a + (k + 1) by omega]; exact hp) hterm
      cases hpa : poll a with
      | err m => simp only [pollLoop, hpa]; exact hrec
      | ok s' d =>
        rw [hpa] at h0
        simp only [nonTerminal, Bool.not_eq_true', Bool.or_eq_false_iff] at h0
        obtain ⟨⟨hs1, hs2⟩, hs3⟩ := h0
        simp only [pollLoop, hpa, hs1, hs2, hs3, Bool.or_self, Bool.false_eq_true, if_false]
        exact hrec

theorem pollLoop_timeout (poll : Nat → PollOutcome) (src : String) :
    ∀ (fuel a : Nat), (∀ j, j < fuel → nonTerminal (poll (a + j)) = true) →
      pollLoop poll src a fuel = [] := by
  intro fuel
  induction fuel with
  | zero => intro a _; rfl
  | succ n ih =>
    intro a hnt
    have h0 : nonTerminal (poll a) = true := by
      have := hnt 0 (by omega); simpa using this
    have hrec : pollLoop poll src (a + 1) n = [] :=
      ih (a + 1) (fun j hj => by
        have := hnt (j + 1) (by omega)
        rwa [show a + (j + 1) = a + 1 + j by omega] at this)
    cases hpa : poll a with
    | err m => simp only [pollLoop, hpa]; exact hrec
    | ok s d =>
      rw [hpa] at h0
      simp only [nonTerminal, Bool.not_eq_true', Bool.or_eq_false_iff] at h0
      obtain ⟨⟨hs1, hs2⟩, hs3⟩ := h0
      simp only [pollLoop, hpa, hs1, hs2, hs3, Bool.or_self, Bool.false_eq_true, if_false]
      exact hrec

theorem pollLoop_congr (poll poll' : Nat → PollOutcome) (src : String) :
    ∀ (fuel a : Nat), (∀ j, a ≤ j → j < a + fuel → poll' j = poll j) →
      pollLoop poll' src a fuel = pollLoop poll src a fuel := by
  intro fuel
  induction fuel with
  | zero => intro a _; rfl
  | succ n ih =>
    intro a hagree
    have h0 : poll' a = poll a := hagree a (le_refl a) (by omega)
    have hrec : pollLoop poll' src (a + 1) n = pollLoop poll src (a + 1) n :=
      ih (a + 1) (fun j h1 h2 => hagree j (by omega) (by omega))
    cases hpa : poll a with
    | err m => simp only [pollLoop, h0, hpa]; exact hrec
    | ok s d =>
      simp only [pollLoop, h0, hpa]
      split
      · rfl
      · split
        · rfl
        · exact hrec

/-- Claim C3: the Jobs Agent extraction poll loop polls with a bounded
number of attempts (`maxRetries = 20`): a `completed` status makes it
return the extracted (filtered) data and stop; a `failed` or `cancelled`
status makes it return an empty listing set immediately, at whatever
attempt it occurs, without exhausting the retry budget; exhausting all
attempts (only non-terminal outcomes) yields the timeout result, an
empty listing set.  The last conjunct shows the result depends only on
the first `maxRetries` poll outcomes, i.e. the loop never polls past its
budget nor past the attempt that decided the result. -/
theorem jobs_poll_loop_terminal_behavior (env : JobsEnv) (src jid : String)
    (hsub : env.submit = .ok (some jid)) (hjid : jid ≠ "") :
    (∀ i data, i < maxRetries → (∀ j, j < i → nonTerminal (env.poll j) = true) →
       env.poll i = .ok "completed" data → extractJobs env src = validJobs src data)
    ∧ (∀ i s data, i < maxRetries → (∀ j, j < i → nonTerminal (env.poll j) = true) →
       env.poll i = .ok s data → (s = "failed" ∨ s = "cancelled") →
       extractJobs env src = [])
    ∧ ((∀ j, j < maxRetries → nonTerminal (env.poll j) = true) →
       extractJobs env src = [])
    ∧ (∀ env' : JobsEnv, env'.submit = env.submit →
       (∀ j, j < maxRetries → env'.poll j = env.poll j) →
       extractJobs env' src = extractJobs env src) := by
  have hex : extractJobs env src = pollLoop env.poll src 0 maxRetries := by
    simp [extractJobs, hsub, truthyOpt, hjid]
  refine ⟨?_, ?_, ?_, ?_⟩
  · intro i data hi hnt hp
    rw [hex]
    exact pollLoop_completed env.poll src i 0 maxRetries data hi
      (fun j hj => by simpa using hnt j hj) (by simpa using hp)
  · intro i s data hi hnt hp hterm
    rw [hex]
    exact pollLoop_failed env.poll src i 0 maxRetries s data hi
      (fun j hj => by simpa using hnt j hj) (by simpa using hp) hterm
  · intro hnt
    rw [hex]
    exact pollLoop_timeout env.poll src maxRetries 0
      (fun j hj => by simpa using hnt j hj)
  · intro env' hsub' hagree
    have hex' : extractJobs env' src = pollLoop env'.poll src 0 maxRetries := by
      simp [extractJobs, hsub'.trans hsub, truthyOpt, hjid]
    rw [hex, hex']
    exact pollLoop_congr env.poll env'.poll src maxRetries 0
      (fun j h1 h2 => hagree j (by omega))

def c3Data : List JobRec :=
  [{ title := some "Engineer", location := some "Remote", url := some "https://apply.example/1" }]

def c3Env : JobsEnv :=
  { submit := .ok (some "job-1"), poll := fun _ => .ok "completed" c3Data }

theorem jobs_poll_loop_terminal_behavior_witness :
    extractJobs c3Env "https://careers.example" = validJobs "https://careers.example" c3Data := by
  exact (jobs_poll_loop_terminal_behavior c3Env "https://careers.example" "job-1" rfl
    (by decide)).1 0 c3Data (by decide) (fun j hj => absurd hj (Nat.not_lt_zero j)) rfl

/-- Claim C10: inside the poll loop, an exception raised by one poll
request does not terminate extraction; the failed attempt consumes one
unit of the attempt budget and the loop moves on to the next attempt.
Together with the second conjunct (an exhausted budget ends the loop
with the empty result), only a terminal status or exhaustion ends the
loop. -/
theorem poll_error_consumes_attempt (poll : Nat → PollOutcome) (src : String)
    (a fuel : Nat) (msg : String) (h : poll a = .err msg) :
    pollLoop poll src a (fuel + 1) = pollLoop poll src (a + 1) fuel ∧
    pollLoop poll src a 0 = [] := by
  constructor
  · simp only [pollLoop, h]
  · rfl

def c10Poll : Nat → PollOutcome :=
  fun n => if n = 0 then .err "connection reset" else .ok "completed" c3Data

theorem poll_error_consumes_attempt_witness :
    pollLoop c10Poll "https://careers.example" 0 4 =
      pollLoop c10Poll "https://careers.example" 1 3 ∧
    pollLoop c10Poll "https://careers.example" 0 0 = [] :=
  poll_error_consumes_attempt c10Poll "https://careers.example" 0 3 "connection reset" rfl

/-- Claim C4: every entry of the final `job_listings` carries a truthy
(non-null, non-empty) apply URL, while the retention test depends only
on the URL, so entries whose title is empty are retained whenever their
apply URL is truthy. -/
theorem job_listings_apply_url_filter :
    (∀ (env : JobsEnv) (j : JobRec),
       j ∈ (discoverJobs env).job_listings → ∃ s, j.url = some s ∧ s ≠ "")
    ∧ (∀ (src : String) (jobs : List JobRec) (j : JobRec),
       j ∈ jobs → truthyOpt j.url = true → j ∈ validJobs src jobs) := by
  constructor
  · intro env j hj
    simp only [discoverJobs] at hj
    cases hfc : findCareersPage env with
    | none => simp only [hfc] at hj; simp at hj
    | some cu =>
      simp only [hfc, extractJobs] at hj
      split at hj
      · simp at hj
      · split at hj
        · exact pollLoop_mem_url env.poll cu maxRetries 0 j hj
        · simp at hj
  · intro src jobs j hmem hurl
    cases h : j.url with
    | none => rw [h] at hurl; simp [truthyOpt] at hurl
    | some s =>
      have heq : ({ j with url := some (j.url.getD src) } : JobRec) = j := by
        cases j; simp_all
      simp only [validJobs, List.mem_map]
      exact ⟨j, List.mem_filter.mpr ⟨hmem, hurl⟩, heq⟩

def c4Job : JobRec := { title := some "", location := some "Remote", url := some "https://apply.example/2" }

theorem job_listings_apply_url_filter_witness :
    c4Job ∈ validJobs "https://careers.example" [c4Job] :=
  job_listings_apply_url_filter.2 "https://careers.example" [c4Job] c4Job
    (List.mem_singleton.mpr rfl) (by decide)

/-! ## LinkedIn / Profile Agent (src/backend/agents/linkedin_agent.py) -/

/-- The JSON object returned by the ScrapeCreators LinkedIn-company
endpoint.  `truthy` models Python dict truthiness (the dict being
non-empty); `success` is the value of the `success` key when it is
present and boolean; `name`/`website`/`description` are JSON keys where
key-absence (outer `none`) and an explicit null (inner `none`) are
distinguished, because `dict.get(key, default)` treats them
differently. -/
structure LinkedInPayload where
  truthy : Bool := true
  success : Option Bool := none
  name : Option (Option String) := none
  website : Option (Option String) := none
  description : Option (Option String) := none
deriving DecidableEq, Repr

/-- Python `d.get(key, default)` for a key modelled as
`Option (Option String)`. -/
def pyGet (field : Option (Option String)) (default : Option String) : Option String :=
  match field with
  | none => default
  | some v => v

/-- Python truthiness of `d.get(key)` for such a key: the key must be
present, non-null and non-empty. -/
def truthyKey (field : Option (Option String)) : Bool :=
  match field with
  | some (some s) => decide (s ≠ "")
  | _ => false

/-- An HTTP response as seen by `requests`: `ok` is `response.ok`, and
`json` the decoded body (a decode failure is folded into the
`Except.error` of the surrounding oracle). -/
structure ScrapeHttp where
  ok : Bool
  json : LinkedInPayload

structure FirecrawlHttp where
  ok : Bool
  markdown : String

/-- Oracle outcomes for LinkedInAgent's external calls.  An
`Except.error` models the call raising. -/
structure LAEnv where
  /-- Tavily search + LLM in `_find_linkedin_url` (the LLM reply content). -/
  findLinkedin : Except String String := .error ""
  /-- `requests.get` to ScrapeCreators in `_scrape_linkedin`. -/
  scrapeHttp : Except String ScrapeHttp := .error ""
  /-- LLM call in `_transform_linkedin_description`. -/
  transformLLM : Except String String := .error ""
  /-- Tavily search + LLM in `_find_website_url`. -/
  findWebsite : Except String String := .error ""
  /-- `requests.post` to Firecrawl in `_scrape_website_fallback`. -/
  fallbackHttp : Except String FirecrawlHttp := .error ""
  /-- Inner LLM summary call in `_scrape_website_fallback`. -/
  fallbackSummary : Except String String := .error ""

/-- The dictionary returned by `LinkedInAgent.get_company_data`: the
branches return differently-shaped dicts, modelled as one record with
optional fields.  `data_source` is present in every branch. -/
structure CompanyData where
  data_source : String
  payload : Option LinkedInPayload := none
  name : Option String := none
  url : Option String := none
  website_extract : Option String := none
  error : Option String := none
deriving Repr

/-- `LinkedInAgent._find_linkedin_url` (lines 70-109): absorbs any
exception, strips the LLM reply, validates `startswith("http")` and
`"/company/" in url`. -/
def findLinkedInUrl (env : LAEnv) : Option String :=
  match env.findLinkedin with
  | .error _ => none
  | .ok content =>
    let url := pyStrip content
    if pyStartsWith url "http" && pyContains url "/company/" then some url else none

/-- `LinkedInAgent._transform_linkedin_description` (lines 159-209):
replaces the description with the stripped LLM rewrite; on any
exception returns the data unchanged. -/
def transformDescription (env : LAEnv) (data : LinkedInPayload) : LinkedInPayload :=
  match env.transformLLM with
  | .ok s => { data with description := some (some (pyStrip s)) }
  | .error _ => data

/-- `LinkedInAgent._scrape_linkedin` (lines 134-157): `none` on a raised
request or a non-ok response; on success the transformed payload. -/
def scrapeLinkedIn (env : LAEnv) : Option LinkedInPayload :=
  match env.scrapeHttp with
  | .error _ => none
  | .ok r => if r.ok then some (transformDescription env r.json) else none

/-- `LinkedInAgent._find_website_url` (lines 111-132). -/
def findWebsiteUrl (env : LAEnv) : Option String :=
  match env.findWebsite with
  | .error _ => none
  | .ok content =>
    let url := pyStrip content
    if pyStartsWith url "http" then some url else none

/-- `LinkedInAgent._scrape_website_fallback` (lines 211-248): on a
successful scrape, build the website dict (`summary or "Extracted from
website."`); on a failed or raising scrape return the terminal
`data_source = "none"` dict. -/
def scrapeWebsiteFallback (env : LAEnv) (companyName url : String) : CompanyData :=
  match env.fallbackHttp with
  | .ok r =>
    if r.ok then
      let summary : Option String :=
        match env.fallbackSummary with
        | .ok s => some s
        | .error _ => none
      let extract :=
        match summary with
        | some s => if s ≠ "" then s else "Extracted from website."
        | none => "Extracted from website."
      { data_source := "website", name := some companyName, url := some url,
        website_extract := some extract }
    else { data_source := "none", name := some companyName }
  | .error _ => { data_source := "none", name := some companyName }

/-- Classification of the provided URL at the top of `get_company_data`
(lines 29-38): a falsy provided URL is ignored; otherwise it is stripped
and routed to `linkedin_url` if it contains `"linkedin.com/company/"`,
else to `website_url`. -/
def classifyProvidedUrl (provided : Option String) : Option String × Option String :=
  match provided with
  | some p =>
    if p ≠ "" then
      let q := pyStrip p
      if pyContains q "linkedin.com/company/" then (some q, none) else (none, some q)
    else (none, none)
  | none => (none, none)

/-- The LinkedIn leg of `get_company_data` (lines 44-51): given the
resolved `linkedin_url`, either the successful linkedin-source dict or
`none` when the leg fell through to the website fallbacks. -/
def linkedinAttempt (env : LAEnv) (linkedinUrl : Option String) : Option CompanyData :=
  if truthyOpt linkedinUrl then
    match scrapeLinkedIn env with
    | some d =>
      if d.truthy && !(d.success == some false) then
        some { data_source := "linkedin", payload := some d }
      else none
    | none => none
  else none

/-- `LinkedInAgent.get_company_data` (lines 22-68), the Profile Agent's
resolve operation.  Every capability outcome (including raised
exceptions, as `Except.error`) is consumed internally, so the function
is total: no exception escapes the agent. -/
def getCompanyData (env : LAEnv) (companyName : String) (provided : Option String) :
    CompanyData :=
  let cls := classifyProvidedUrl provided
  let linkedinUrl := if truthyOpt cls.1 then cls.1 else findLinkedInUrl env
  match linkedinAttempt env linkedinUrl with
  | some r => r
  | none =>
    if truthyOpt cls.2 then
      scrapeWebsiteFallback env companyName ((cls.2).getD "")
    else
      match findWebsiteUrl env with
      | some w =>
        if truthyOpt (some w) then scrapeWebsiteFallback env companyName w
        else { data_source := "none",
               error := some "Could not find company data from LinkedIn or website" }
      | none =>
        { data_source := "none",
          error := some "Could not find company data from LinkedIn or website" }

theorem linkedinAttempt_data_source (env : LAEnv) (u : Option String) (r : CompanyData)
    (h : linkedinAttempt env u = some r) : r.data_source = "linkedin" := by
  unfold linkedinAttempt at h
  by_cases ht : truthyOpt u = true
  · rw [if_pos ht] at h
    cases hs : scrapeLinkedIn env with
    | none => simp only [hs] at h; exact absurd h (by simp)
    | some d =>
      simp only [hs] at h
      by_cases hc : (d.truthy && !(d.success == some false)) = true
      · rw [if_pos hc] at h
        obtain rfl := Option.some.inj h
        rfl
      · rw [if_neg hc] at h; exact absurd h (by simp)
  · rw [if_neg ht] at h; exact absurd h (by simp)

theorem scrapeWebsiteFallback_data_source (env : LAEnv) (n u : String) :
    (scrapeWebsiteFallback env n u).data_source = "website" ∨
    (scrapeWebsiteFallback env n u).data_source = "none" := by
  simp only [scrapeWebsiteFallback]
  cases env.fallbackHttp with
  | error m => simp
  | ok r =>
    by_cases h : r.ok <;> simp [h]

/-- Claim C1: for every combination of capability outcomes (identity
lookup succeeds or fails, website URL found or not, website scrape
succeeds or fails), the Profile Agent's resolve operation
`get_company_data` returns a result whose provenance tag `data_source`
is one of `linkedin`, `website`, `none`.  The embedding is a total
function: every exception a capability can raise is an `Except.error`
consumed by the agent's internal handlers, so no exception escapes. -/
theorem profile_resolve_provenance_total (env : LAEnv) (companyName : String)
    (provided : Option String) :
    (getCompanyData env companyName provided).data_source = "linkedin" ∨
    (getCompanyData env companyName provided).data_source = "website" ∨
    (getCompanyData env companyName provided).data_source = "none" := by
  simp only [getCompanyData]
  cases hla : linkedinAttempt env
      (if truthyOpt (classifyProvidedUrl provided).1 then (classifyProvidedUrl provided).1
       else findLinkedInUrl env) with
  | some r =>
    simp only [hla]
    left
    exact linkedinAttempt_data_source env _ r hla
  | none =>
    simp only [hla]
    split
    · rcases scrapeWebsiteFallback_data_source env companyName
        (((classifyProvidedUrl provided).2).getD "") with h | h
      · right; left; exact h
      · right; right; exact h
    · split
      · rename_i w hw
        split
        · rcases scrapeWebsiteFallback_data_source env companyName w with h | h
          · right; left; exact h
          · right; right; exact h
        · right; right; rfl
      · right; right; rfl

/-! ## Pipeline nodes (src/backend/agent_flow.py) -/

/-- The dict built by `scrape_company_website_fallback`. -/
structure FallbackDict where
  name : Option String := none
  website : Option String := none
  description : String := ""
  industry : Option String := none
  headquarters : Option String := none
  size : Option String := none
  founded : Option String := none
  data_source : String := ""
deriving DecidableEq, Repr

/-- The value stored in `state['linkedin_data']`: either the raw
ScrapeCreators payload or the website-fallback dict. -/
inductive LIData where
  | payload (p : LinkedInPayload)
  | fallback (f : FallbackDict)
deriving DecidableEq, Repr

/-- A pydantic `JobOpening` (all three fields required strings). -/
structure JobOpening where
  title : String
  location : String
  link : String
deriving DecidableEq, Repr

/-- The pydantic `LLMGeneratedData` object. -/
structure LLMGenerated where
  job_openings : List JobOpening
  recent_news_summary : String

/-- The `AgentState` TypedDict (`total=False`): every field may be
absent.  An absent key and a key explicitly set to `None` are collapsed
to `none` (each field below is only ever read back through `state.get`
or after being set to a real value, so the two are indistinguishable to
the code). -/
structure AgentState where
  initial_input : Option String := none
  provided_url : Option String := none
  company_name : Option String := none
  website_url : Option String := none
  linkedin_url : Option String := none
  linkedin_data : Option LIData := none
  careers_page_url : Option String := none
  careers_page_content : Option String := none
  recent_news : Option String := none
  job_openings : Option (List JobOpening) := none
  recent_news_summary : Option String := none
  data_source : Option String := none

/-- Oracle outcomes for the external calls made by the agent_flow
nodes.  An `Except.error` models the call raising. -/
structure FlowEnv where
  /-- Tavily + LLM inside `find_linkedin_url_node`. -/
  findLinkedinSearch : Except String String := .error ""
  /-- The `scrape_linkedin_company` tool call in `scrape_linkedin_node`;
  an invalid (non-dict or falsy) return value is a payload with
  `truthy := false`. -/
  scrapeLinkedinTool : Except String LinkedInPayload := .error ""
  /-- Firecrawl scrape + LLM extraction inside
  `scrape_company_website_fallback`; `ok` carries the LLM summary. -/
  fallbackScrapeLLM : Except String String := .error ""
  /-- Tavily + LLM for the careers URL in `find_jobs_and_news_node`. -/
  careersSearchLLM : Except String String := .error ""
  /-- Tavily news search in `find_jobs_and_news_node`. -/
  newsSearch : Except String String := .error ""
  /-- Firecrawl scrape in `scrape_careers_page_node`; the error message
  is interpolated into the stored content. -/
  careersScrape : Except String String := .error ""
  /-- The structured LLM call in `generate_final_report_node`. -/
  finalLLM : Except String LLMGenerated := .error ""

/-- `start_node` (lines 62-76): always sets `company_name` to the
stripped raw input; classifies only the separately provided URL.
(`initial_input` is always supplied by the caller; a missing key would
raise a KeyError, which this model does not represent.) -/
def startNode (st : AgentState) : AgentState :=
  let st1 := { st with company_name := some (pyStrip (st.initial_input.getD "")) }
  match st.provided_url with
  | some u =>
    if u ≠ "" then
      if pyContains u "linkedin.com/company" then { st1 with linkedin_url := some u }
      else { st1 with website_url := some u }
    else st1
  | none => st1

/-- `find_linkedin_url_node` (lines 78-100). -/
def findLinkedinUrlNode (env : FlowEnv) (st : AgentState) : AgentState :=
  if truthyOpt st.linkedin_url then st
  else
    match env.findLinkedinSearch with
    | .ok content => { st with linkedin_url := some (pyStrip content) }
    | .error _ => { st with linkedin_url := none }

/-- `scrape_company_website_fallback` (lines 102-171): with no truthy
website URL, or when the scrape/extraction raises, the returned dict
carries `data_source = "none"` and the placeholder description; only a
successful scrape+extraction yields `data_source = "website"`. -/
def websiteFallback (env : FlowEnv) (st : AgentState) : FallbackDict :=
  if truthyOpt st.website_url = false then
    { name := st.company_name, website := none,
      description := "Company information unavailable", data_source := "none" }
  else
    match env.fallbackScrapeLLM with
    | .ok summary =>
      { name := st.company_name, website := st.website_url, description := summary,
        industry := some "Unknown", headquarters := some "Unknown",
        size := some "Unknown", founded := some "Unknown", data_source := "website" }
    | .error _ =>
      { name := st.company_name, website := st.website_url,
        description := "Company information unavailable", data_source := "none" }

/-- `scrape_linkedin_node` (lines 173-209).  Note: in the first branch
(no LinkedIn URL) the node copies the fallback dict's own
`data_source`; in the three failure branches (tool raised, invalid
payload, `success == False` or missing name) it stores the fallback
dict but hard-codes `data_source = "website"`. -/
def scrapeLinkedinNode (env : FlowEnv) (st : AgentState) : AgentState :=
  if truthyOpt st.linkedin_url = false then
    let fb := websiteFallback env st
    { st with linkedin_data := some (.fallback fb), data_source := some fb.data_source }
  else
    match env.scrapeLinkedinTool with
    | .error _ =>
      { st with linkedin_data := some (.fallback (websiteFallback env st)),
                data_source := some "website" }
    | .ok d =>
      if d.truthy = false then
        { st with linkedin_data := some (.fallback (websiteFallback env st)),
                  data_source := some "website" }
      else if d.success == some false || !(truthyKey d.name) then
        { st with linkedin_data := some (.fallback (websiteFallback env st)),
                  data_source := some "website" }
      else
        { st with linkedin_data := some (.payload d),
                  data_source := some "linkedin",
                  company_name := pyGet d.name st.company_name,
                  website_url := pyGet d.website st.website_url }

/-- `find_jobs_and_news_node` (lines 211-245). -/
def findJobsAndNewsNode (env : FlowEnv) (st : AgentState) : AgentState :=
  let st1 :=
    match env.careersSearchLLM with
    | .ok content => { st with careers_page_url := some (pyStrip content) }
    | .error _ => { st with careers_page_url := none }
  match env.newsSearch with
  | .ok r => { st1 with recent_news := some r }
  | .error _ => { st1 with recent_news := some "" }

/-- `scrape_careers_page_node` (lines 247-279). -/
def scrapeCareersPageNode (env : FlowEnv) (st : AgentState) : AgentState :=
  if truthyOpt st.careers_page_url = false then
    { st with careers_page_content := some "No careers page found." }
  else
    match env.careersScrape with
    | .ok md => { st with careers_page_content := some md }
    | .error e =>
      { st with careers_page_content := some ("Failed to scrape careers page: " ++ e) }

/-- `generate_final_report_node` (lines 281-320). -/
def generateFinalReportNode (env : FlowEnv) (st : AgentState) : AgentState :=
  match env.finalLLM with
  | .ok g =>
    { st with job_openings := some g.job_openings,
              recent_news_summary := some g.recent_news_summary }
  | .error _ =>
    { st with job_openings := some [],
              recent_news_summary := some "Unable to generate news summary" }

/-! ### Claim C2 (Profile stage provenance) -/

def c2State : AgentState :=
  { company_name := some "Acme", website_url := some "https://acme.example",
    linkedin_url := some "https://www.linkedin.com/company/acme" }

def c2Env : FlowEnv :=
  { scrapeLinkedinTool := .error "ScrapeCreators timeout",
    fallbackScrapeLLM := .error "Firecrawl 500" }

/-- Claim C2, evaluated at the failing input: a record with a LinkedIn
URL whose scrape raises, and whose website fallback also fails.  The
fallback dict itself records `data_source = "none"` ("Company
information unavailable" — no website-derived profile data was
obtained), yet `scrape_linkedin_node` persists `data_source =
"website"`: the claim requires provenance `"none"` for this run, so the
code contradicts both the claim and its own fallback's contract (the
`no-LinkedIn-URL` branch of the same function propagates the fallback's
`data_source` instead of hard-coding it). -/
theorem provenance_website_despite_total_failure :
    (scrapeLinkedinNode c2Env c2State).data_source = some "website" ∧
    (scrapeLinkedinNode c2Env c2State).linkedin_data =
      some (LIData.fallback
        { name := some "Acme", website := some "https://acme.example",
          description := "Company information unavailable", data_source := "none" }) := by
  constructor <;> rfl

/-! ### Claim C8 (identity-field refinement) -/

def c8State : AgentState :=
  { company_name := some "Acme", website_url := some "https://acme.example",
    linkedin_url := some "https://www.linkedin.com/company/acme" }

/-- A ScrapeCreators payload whose JSON carries `"website": null`. -/
def c8Payload : LinkedInPayload :=
  { truthy := true, success := none, name := some (some "Acme Inc"),
    website := some none }

def c8Env : FlowEnv := { scrapeLinkedinTool := .ok c8Payload }

/-- Claim C8 counterexample: a record whose `website_url` is non-null
when the refinement step runs, and a successful LinkedIn payload whose
`website` key is an explicit JSON null.  `linkedin_data.get('website',
state['website_url'])` returns the present-but-null value, so the
refinement discards the non-null `website_url` by setting it to null —
contradicting the claim that the field still holds a non-null value
afterwards. -/
theorem refinement_nulls_website_url_counterexample :
    c8State.website_url = some "https://acme.example" ∧
    (scrapeLinkedinNode c8Env c8State).data_source = some "linkedin" ∧
    (scrapeLinkedinNode c8Env c8State).website_url = none := by
  refine ⟨rfl, ?_, ?_⟩ <;> rfl

theorem scrapeLinkedinNode_shape (env : FlowEnv) (st : AgentState) :
    ((scrapeLinkedinNode env st).website_url = st.website_url ∧
     (scrapeLinkedinNode env st).company_name = st.company_name)
    ∨ (∃ d, env.scrapeLinkedinTool = .ok d ∧ truthyKey d.name = true ∧
        (scrapeLinkedinNode env st).website_url = pyGet d.website st.website_url ∧
        (scrapeLinkedinNode env st).company_name = pyGet d.name st.company_name ∧
        (scrapeLinkedinNode env st).data_source = some "linkedin") := by
  by_cases hl : truthyOpt st.linkedin_url = false
  · left
    refine ⟨?_, ?_⟩ <;> simp [scrapeLinkedinNode, hl]
  · cases htool : env.scrapeLinkedinTool with
    | error m =>
      left
      refine ⟨?_, ?_⟩ <;> simp [scrapeLinkedinNode, hl, htool]
    | ok d =>
      by_cases hd : d.truthy = false
      · left
        refine ⟨?_, ?_⟩ <;> simp [scrapeLinkedinNode, hl, htool, hd]
      · by_cases hcnd : (d.success == some false || !(truthyKey d.name)) = true
        · left
          refine ⟨?_, ?_⟩ <;> simp [scrapeLinkedinNode, hl, htool, hd, hcnd]
        · right
          have h2 : (d.success == some false || !(truthyKey d.name)) = false := by
            simpa using hcnd
          have hname : truthyKey d.name = true := by
            simpa using (Bool.or_eq_false_iff.mp h2).2
          refine ⟨d, rfl, hname, ?_, ?_, ?_⟩ <;>
            simp [scrapeLinkedinNode, hl, htool, hd, hcnd]

/-- Claim C8, amended: non-null `company_name` is always preserved by
the Profile stage's refinement step, and non-null `website_url` is
preserved provided the scraped LinkedIn payload does not carry an
explicit `"website": null` key (a present-but-null key is the one case,
exhibited by the counterexample, in which `linkedin_data.get('website',
old)` discards the old non-null value); when the refinement does not
take the LinkedIn-success branch, both fields are left exactly
unchanged; and no other pipeline node modifies `company_name`,
`website_url`, or a `linkedin_url` that is already truthy — the
refinement is confined to the single `scrape_linkedin_node` step. -/
theorem profile_refinement_amended (env : FlowEnv) (st : AgentState)
    (hw : st.website_url ≠ none) (hc : st.company_name ≠ none)
    (hp : ∀ p, env.scrapeLinkedinTool = .ok p → p.website ≠ some none) :
    (scrapeLinkedinNode env st).website_url ≠ none ∧
    (scrapeLinkedinNode env st).company_name ≠ none ∧
    ((scrapeLinkedinNode env st).data_source ≠ some "linkedin" →
      (scrapeLinkedinNode env st).website_url = st.website_url ∧
      (scrapeLinkedinNode env st).company_name = st.company_name) ∧
    (∀ e2, (findJobsAndNewsNode e2 st).company_name = st.company_name ∧
           (findJobsAndNewsNode e2 st).website_url = st.website_url ∧
           (findJobsAndNewsNode e2 st).linkedin_url = st.linkedin_url) ∧
    (∀ e2, (scrapeCareersPageNode e2 st).company_name = st.company_name ∧
           (scrapeCareersPageNode e2 st).website_url = st.website_url ∧
           (scrapeCareersPageNode e2 st).linkedin_url = st.linkedin_url) ∧
    (∀ e2, (generateFinalReportNode e2 st).company_name = st.company_name ∧
           (generateFinalReportNode e2 st).website_url = st.website_url ∧
           (generateFinalReportNode e2 st).linkedin_url = st.linkedin_url) ∧
    (∀ e2, (findLinkedinUrlNode e2 st).company_name = st.company_name ∧
           (findLinkedinUrlNode e2 st).website_url = st.website_url ∧
           (truthyOpt st.linkedin_url = true →
             (findLinkedinUrlNode e2 st).linkedin_url = st.linkedin_url)) := by
  have hshape := scrapeLinkedinNode_shape env st
  refine ⟨?_, ?_, ?_, ?_, ?_, ?_, ?_⟩
  · rcases hshape with ⟨h1, _⟩ | ⟨d, hd, hname, h1, _, _⟩
    · rw [h1]; exact hw
    · rw [h1]
      have hwd := hp d hd
      cases hweb : d.website with
      | none => simp [pyGet, hweb]; exact hw
      | some v =>
        cases v with
        | none => exact absurd hweb hwd
        | some s => simp [pyGet, hweb]
  · rcases hshape with ⟨_, h2⟩ | ⟨d, hd, hname, _, h2, _⟩
    · rw [h2]; exact hc
    · rw [h2]
      cases hname' : d.name with
      | none => simp [truthyKey, hname'] at hname
      | some v =>
        cases v with
        | none => simp [truthyKey, hname'] at hname
        | some s => simp [pyGet, hname']
  · intro hds
    rcases hshape with ⟨h1, h2⟩ | ⟨d, hd, hname, _, _, h3⟩
    · exact ⟨h1, h2⟩
    · exact absurd h3 hds
  · intro e2
    unfold findJobsAndNewsNode
    cases e2.careersSearchLLM <;> cases e2.newsSearch <;> exact ⟨rfl, rfl, rfl⟩
  · intro e2
    unfold scrapeCareersPageNode
    split
    · exact ⟨rfl, rfl, rfl⟩
    · cases e2.careersScrape <;> exact ⟨rfl, rfl, rfl⟩
  · intro e2
    unfold generateFinalReportNode
    cases e2.finalLLM <;> exact ⟨rfl, rfl, rfl⟩
  · intro e2
    unfold findLinkedinUrlNode
    split
    · exact ⟨rfl, rfl, fun _ => rfl⟩
    · rename_i hfalse
      cases e2.findLinkedinSearch <;>
        exact ⟨rfl, rfl, fun ht => absurd ht hfalse⟩

def c8WPayload : LinkedInPayload :=
  { truthy := true, success := none, name := some (some "Acme Inc"),
    website := some (some "https://www.acme-inc.example") }

def c8WEnv : FlowEnv := { scrapeLinkedinTool := .ok c8WPayload }

theorem profile_refinement_amended_witness :
    (scrapeLinkedinNode c8WEnv c8State).website_url ≠ none ∧
    (scrapeLinkedinNode c8WEnv c8State).company_name ≠ none := by
  have h := profile_refinement_amended c8WEnv c8State (by decide) (by decide)
    (fun p hp => by
      have : p = c8WPayload := Except.ok.inj hp.symm
      subst this
      decide)
  exact ⟨h.1, h.2.1⟩

/-! ### Claim C9 (Init seed parsing) -/

def c9Seed : AgentState := { initial_input := some "https://acme.example" }

/-- Claim C9 counterexample: a seed whose raw input starts with a URL
scheme.  The claim says Init treats the raw input as the explicit URL
of the request and leaves `company_name` unset; the code instead sets
`company_name` to the (stripped) raw input and stores it in neither URL
field. -/
theorem init_url_input_counterexample :
    (startNode c9Seed).company_name = some "https://acme.example" ∧
    (startNode c9Seed).website_url = none ∧
    (startNode c9Seed).linkedin_url = none := by
  refine ⟨?_, rfl, rfl⟩
  rfl

/-- Claim C9, amended: `start_node` never scheme-checks the raw input;
it always sets `company_name` to the stripped raw input, URL-shaped or
not.  Only the separately provided URL field is classified: when truthy
it is stored in `linkedin_url` if it contains `linkedin.com/company`,
otherwise in `website_url`; when it is absent or empty both URL fields
are left unchanged. -/
theorem init_seed_parsing_amended (st : AgentState) :
    (startNode st).company_name = some (pyStrip (st.initial_input.getD "")) ∧
    (truthyOpt st.provided_url = false →
      (startNode st).website_url = st.website_url ∧
      (startNode st).linkedin_url = st.linkedin_url) ∧
    (∀ u, st.provided_url = some u → u ≠ "" →
      (pyContains u "linkedin.com/company" = true →
        (startNode st).linkedin_url = some u ∧
        (startNode st).website_url = st.website_url) ∧
      (pyContains u "linkedin.com/company" = false →
        (startNode st).website_url = some u ∧
        (startNode st).linkedin_url = st.linkedin_url)) := by
  refine ⟨?_, ?_, ?_⟩
  · unfold startNode
    cases hp : st.provided_url with
    | none => rfl
    | some u =>
      by_cases hu : u ≠ ""
      · by_cases hcont : pyContains u "linkedin.com/company" = true <;>
          simp [hu, hcont]
      · simp [hu]
  · intro hfalsy
    unfold startNode
    cases hp : st.provided_url with
    | none => exact ⟨rfl, rfl⟩
    | some u =>
      have hu : u = "" := by
        rw [hp] at hfalsy
        simpa [truthyOpt] using hfalsy
      subst hu
      simp
  · intro u hp hu
    unfold startNode
    rw [hp]
    constructor
    · intro hcont
      simp [hu, hcont]
    · intro hcont
      simp [hu, hcont]

/-! ## Client Summary / Brief Agent (src/backend/agents/client_summary_agent.py) -/

/-- The pydantic `ClientBrief` object (all fields required). -/
structure ClientBrief where
  company_name : String
  summary : String
  hiring_context : String
  key_points : List String
  approach : String
  sources_used : List String

/-- The plain dict a brief is returned as.  `none` models a key dropped
by the falsy-value filter of `_postprocess` (the fallback dict never
drops keys). -/
structure BriefDict where
  company_name : Option String := none
  summary : Option String := none
  hiring_context : Option String := none
  key_points : Option (List String) := none
  approach : Option String := none
  sources_used : Option (List String) := none
deriving DecidableEq, Repr

/-- The `linkedin_data` dict as consumed by the brief agent's fallback.
`dictTruthy` is the Python truthiness of the dict object itself (an
empty dict is falsy); the two field keys are collapsed to `Option`
(only truthiness and the value are used). -/
structure LinkedInBriefData where
  dictTruthy : Bool := true
  industry : Option String := none
  headquarters : Option String := none
deriving DecidableEq, Repr

/-- `ClientSummaryAgent._postprocess` (lines 135-153): truncate
`summary` to 600 and `hiring_context` to 400 characters, keep at most 6
non-blank key points truncated to 180 characters, then drop every falsy
value (empty string or empty list). -/
def postprocessBrief (b : ClientBrief) : BriefDict :=
  let summary := pyTakeStr 600 b.summary
  let hc := pyTakeStr 400 b.hiring_context
  let kps := ((b.key_points.take 6).filter (fun s => pyStrip s ≠ "")).map (pyTakeStr 180)
  { company_name := if b.company_name ≠ "" then some b.company_name else none,
    summary := if summary ≠ "" then some summary else none,
    hiring_context := if hc ≠ "" then some hc else none,
    key_points := if kps ≠ [] then some kps else none,
    approach := if b.approach ≠ "" then some b.approach else none,
    sources_used := if b.sources_used ≠ [] then some b.sources_used else none }

/-- `ClientSummaryAgent._fallback_brief` (lines 155-174): a
deterministic dict built purely from the company name and whatever
LinkedIn fields exist; it makes no external call (it consumes nothing
from any capability oracle). -/
def fallbackBrief (companyName : String) (li : Option LinkedInBriefData) : BriefDict :=
  let liTruthy := match li with | some d => d.dictTruthy | none => false
  let base := companyName ++ " is a company"
  let summary :=
    match li with
    | some d =>
      if d.dictTruthy then
        ((base ++ (if truthyOpt d.industry then
                     " in the " ++ d.industry.getD "" ++ " industry" else ""))
          ++ (if truthyOpt d.headquarters then
                ", headquartered in " ++ d.headquarters.getD "" else "")) ++ "."
      else base
    | none => base
  { company_name := some companyName,
    summary := some summary,
    hiring_context := some "No current hiring signals available",
    key_points := some ["Company profile available for review"],
    approach := some "Standard",
    sources_used := some (if liTruthy then ["linkedin#basic"] else []) }

/-- `ClientSummaryAgent.create_brief` (lines 30-64).  `gen` is the
outcome of the single structured-generation call (the prompt build and
`_postprocess` are pure).  The second component counts the
structured-generation invocations performed: exactly the one attempt,
on both paths — the fallback path makes no further generation or
network call. -/
def createBrief (gen : Except String ClientBrief) (companyName : String)
    (li : Option LinkedInBriefData) (web news : Option String)
    (jobs : Option (List JobRec)) : BriefDict × Nat :=
  match gen with
  | .ok b => (postprocessBrief b, 1)
  | .error _ => (fallbackBrief companyName li, 1)

theorem append_ne_empty (s t : String) (ht : t.length ≠ 0) : s ++ t ≠ "" := by
  intro h
  have hlen : s.length + t.length = 0 := by
    have := congrArg String.length h
    simpa [String.length_append] using this
  omega

/-- Claim C7: whenever the brief synthesis raises, `create_brief`
returns the deterministic fallback object, built purely from the local
inputs, carrying the company name and a non-empty summary, and performs
no generation call beyond the one failed attempt (call count stays 1);
in particular this holds when profile, news and job inputs are all
absent. -/
theorem brief_fallback_on_exception (e : String) (gen : Except String ClientBrief)
    (companyName : String) (li : Option LinkedInBriefData) (web news : Option String)
    (jobs : Option (List JobRec)) (hgen : gen = .error e) :
    createBrief gen companyName li web news jobs = (fallbackBrief companyName li, 1) ∧
    (fallbackBrief companyName li).company_name = some companyName ∧
    (∃ s, (fallbackBrief companyName li).summary = some s ∧ s ≠ "") := by
  subst hgen
  refine ⟨rfl, rfl, ?_⟩
  simp only [fallbackBrief]
  cases li with
  | none =>
    exact ⟨companyName ++ " is a company", rfl,
      append_ne_empty companyName " is a company" (by decide)⟩
  | some d =>
    by_cases hd : d.dictTruthy = true
    · simp only [hd, if_true]
      exact ⟨_, rfl, append_ne_empty _ "." (by decide)⟩
    · have hd' : d.dictTruthy = false := by simpa using hd
      simp only [hd', Bool.false_eq_true, if_false]
      exact ⟨companyName ++ " is a company", rfl,
        append_ne_empty companyName " is a company" (by decide)⟩

theorem brief_fallback_on_exception_witness :
    createBrief (.error "generation failed") "Acme" none none none none =
      (fallbackBrief "Acme" none, 1) ∧
    (fallbackBrief "Acme" none).company_name = some "Acme" ∧
    (∃ s, (fallbackBrief "Acme" none).summary = some s ∧ s ≠ "") :=
  brief_fallback_on_exception "generation failed" (.error "generation failed")
    "Acme" none none none none rfl

/-! ## Job Store and run driver (src/backend/app.py, run_research_job) -/

/-- The persisted Firestore job document (the fields `run_research_job`
reads or writes).  `completed_at` records whether the completion
timestamp was set. -/
structure JobDoc where
  status : String := "pending"
  steps_complete : List String := []
  error : Option String := none
  linkedin_data : Option LIData := none
  job_openings : Option (List JobOpening) := none
  recent_news_summary : Option String := none
  data_source : Option String := none
  raw_careers_markdown : Option String := none
  raw_news_data : Option String := none
  completed_at : Bool := false
deriving Repr

/-- One event of `graph.stream(inputs)`: either the next step completes,
yielding its node name and the full state the node returned, or the
iteration raises. -/
inductive StreamEv where
  | ok (name : String) (st : AgentState)
  | exn (msg : String)

/-- An HTTP response `(body, code)` as returned by the Flask handler. -/
structure Resp where
  body : String
  code : Nat
deriving DecidableEq, Repr

/-- Oracle for one invocation of `run_research_job`.  `request` is the
parse of the request body (`error` = `request.json` raised, `ok v` =
`data.get('job_id')`); the Firestore reads/writes themselves are the
durable store and are modelled as reliable. -/
structure RunEnv where
  request : Except String (Option String) := .error ""
  jobExists : Bool := true
  stream : List StreamEv := []

/-- The final `job_ref.update` (lines 163-189): one merged write carrying
`status: complete`, the completion timestamp, and every result field
present in the final state. -/
def applyComplete (doc : JobDoc) (fs : Option AgentState) : JobDoc :=
  let base := { doc with status := "complete", completed_at := true }
  match fs with
  | none => base
  | some st =>
    { base with
      linkedin_data :=
        if st.linkedin_data.isSome then st.linkedin_data else doc.linkedin_data,
      job_openings :=
        if st.job_openings.isSome then st.job_openings else doc.job_openings,
      recent_news_summary :=
        if st.recent_news_summary.isSome then st.recent_news_summary
        else doc.recent_news_summary,
      data_source :=
        if st.data_source.isSome then st.data_source else doc.data_source,
      raw_careers_markdown :=
        if st.careers_page_content.isSome then st.careers_page_content
        else doc.raw_careers_markdown,
      raw_news_data :=
        if st.recent_news.isSome then st.recent_news else doc.raw_news_data }

/-- The streaming loop of `run_research_job` (lines 143-204): after each
completed step, one merged write with `status: running` and the whole
accumulated `steps_complete` list; on exhaustion the completion write;
on a raise, the `except` branch's single write of `status: error` plus
the message, and the normal `("Job failed", 200)` return.  The first
component is the sequence of persisted document states, in write
order. -/
def runLoop (doc : JobDoc) (acc : List String) (fs : Option AgentState) :
    List StreamEv → List JobDoc × Resp
  | [] => ([applyComplete doc fs], { body := "Job completed successfully", code := 200 })
  | .ok name st :: rest =>
    let d := { doc with status := "running", steps_complete := acc ++ [name] }
    let r := runLoop d (acc ++ [name]) (some st) rest
    (d :: r.1, r.2)
  | .exn msg :: _ =>
    ([{ doc with status := "error", error := some msg }],
     { body := "Job failed", code := 200 })

/-- `run_research_job` (lines 114-204): the trace of persisted document
states together with the HTTP response.  The function is total: every
path, including every raising stream, returns a response — the `except`
branch never re-raises. -/
def runJob (env : RunEnv) (doc : JobDoc) : List JobDoc × Resp :=
  match env.request with
  | .error _ => ([], { body := "Job failed", code := 200 })
  | .ok jid =>
    if truthyOpt jid = false then ([], { body := "No job_id provided", code := 400 })
    else if env.jobExists = false then ([], { body := "Job not found", code := 404 })
    else runLoop doc [] none env.stream

/-- The document state after the `k`-th running write, threaded along
the loop (helper for stating `runLoop`'s behaviour). -/
def lastRunningDoc (doc : JobDoc) (acc : List String) : List String → JobDoc
  | [] => doc
  | n :: ns =>
    lastRunningDoc { doc with status := "running", steps_complete := acc ++ [n] }
      (acc ++ [n]) ns

/-- The sequence of running-status writes the loop performs. -/
def runningDocs (doc : JobDoc) (acc : List String) : List String → List JobDoc
  | [] => []
  | n :: ns =>
    let d := { doc with status := "running", steps_complete := acc ++ [n] }
    d :: runningDocs d (acc ++ [n]) ns

def okStream (pairs : List (String × AgentState)) : List StreamEv :=
  pairs.map (fun p => StreamEv.ok p.1 p.2)

theorem runningDocs_length : ∀ (ns : List String) (doc : JobDoc) (acc : List String),
    (runningDocs doc acc ns).length = ns.length := by
  intro ns
  induction ns with
  | nil => intro doc acc; rfl
  | cons n ns ih => intro doc acc; simp [runningDocs, ih]

theorem runningDocs_get : ∀ (ns : List String) (doc : JobDoc) (acc : List String)
    (i : Nat), i < ns.length →
    (runningDocs doc acc ns)[i]? =
      some { doc with status := "running", steps_complete := acc ++ ns.take (i + 1) } := by
  intro ns
  induction ns with
  | nil => intro doc acc i hi; simp at hi
  | cons n ns ih =>
    intro doc acc i hi
    cases i with
    | zero => simp [runningDocs]
    | succ k =>
      have hk : k < ns.length := by simpa using hi
      simp only [runningDocs, List.getElem?_cons_succ]
      rw [ih _ (acc ++ [n]) k hk]
      simp [List.append_assoc]

theorem lastRunningDoc_ne_nil : ∀ (ns : List String) (doc : JobDoc) (acc : List String),
    ns ≠ [] →
    lastRunningDoc doc acc ns =
      { doc with status := "running", steps_complete := acc ++ ns } := by
  intro ns
  induction ns with
  | nil => intro doc acc h; exact absurd rfl h
  | cons n ns ih =>
    intro doc acc _
    show lastRunningDoc
      { doc with status := "running", steps_complete := acc ++ [n] } (acc ++ [n]) ns = _
    cases ns with
    | nil => rfl
    | cons m ns2 =>
      rw [ih _ (acc ++ [n]) (by simp)]
      simp [List.append_assoc]

theorem foldl_lastState : ∀ (pairs : List (String × AgentState)) (fs : Option AgentState),
    pairs.foldl (fun _ p => some p.2) fs =
      (match pairs.getLast? with
       | some q => some q.2
       | none => fs) := by
  intro pairs
  induction pairs with
  | nil => intro fs; rfl
  | cons p rest ih =>
    intro fs
    show rest.foldl (fun _ p => some p.2) (some p.2) = _
    rw [ih]
    cases rest with
    | nil => simp
    | cons q rest2 =>
      have hsome := List.getLast?_isSome.mpr
        (by simp : (q :: rest2 : List (String × AgentState)) ≠ [])
      obtain ⟨x, hx⟩ := Option.isSome_iff_exists.mp hsome
      rw [List.getLast?_cons_cons, hx]

theorem applyComplete_status (d : JobDoc) (fs : Option AgentState) :
    (applyComplete d fs).status = "complete" := by cases fs <;> rfl

theorem applyComplete_steps (d : JobDoc) (fs : Option AgentState) :
    (applyComplete d fs).steps_complete = d.steps_complete := by cases fs <;> rfl

theorem runLoop_ok : ∀ (pairs : List (String × AgentState)) (doc : JobDoc)
    (acc : List String) (fs : Option AgentState),
    runLoop doc acc fs (okStream pairs) =
      (runningDocs doc acc (pairs.map Prod.fst) ++
        [applyComplete (lastRunningDoc doc acc (pairs.map Prod.fst))
          (pairs.foldl (fun _ p => some p.2) fs)],
       { body := "Job completed successfully", code := 200 }) := by
  intro pairs
  induction pairs with
  | nil => intro doc acc fs; rfl
  | cons p rest ih =>
    intro doc acc fs
    show (_ :: (runLoop _ _ _ (okStream rest)).1, (runLoop _ _ _ (okStream rest)).2) = _
    rw [ih]
    rfl

theorem runLoop_exn : ∀ (pairs : List (String × AgentState)) (doc : JobDoc)
    (acc : List String) (fs : Option AgentState) (msg : String) (rest : List StreamEv),
    runLoop doc acc fs (okStream pairs ++ .exn msg :: rest) =
      (runningDocs doc acc (pairs.map Prod.fst) ++
        [{ lastRunningDoc doc acc (pairs.map Prod.fst) with
           status := "error", error := some msg }],
       { body := "Job failed", code := 200 }) := by
  intro pairs
  induction pairs with
  | nil => intro doc acc fs msg rest; rfl
  | cons p prest ih =>
    intro doc acc fs msg rest
    show (_ :: (runLoop _ _ _ (okStream prest ++ _)).1,
          (runLoop _ _ _ (okStream prest ++ _)).2) = _
    rw [ih]
    rfl

/-- Claim C5: when an unhandled exception occurs during the run (the
stream raises after any number of completed steps), the job record is
persisted with `status: "error"` and the error message, and the handler
still returns the normal `("Job failed", 200)` response — the exception
is not re-raised past the store boundary (`runJob` is a total function
into responses). -/
theorem job_store_error_boundary (env : RunEnv) (doc0 : JobDoc) (jid : String)
    (pairs : List (String × AgentState)) (msg : String) (rest : List StreamEv)
    (hreq : env.request = .ok (some jid)) (hjid : jid ≠ "")
    (hex : env.jobExists = true)
    (hstream : env.stream = okStream pairs ++ .exn msg :: rest) :
    (runJob env doc0).2 = { body := "Job failed", code := 200 } ∧
    ∃ d, (runJob env doc0).1.getLast? = some d ∧
      d.status = "error" ∧ d.error = some msg := by
  have hrun : runJob env doc0 = runLoop doc0 [] none env.stream := by
    simp [runJob, hreq, truthyOpt, hjid, hex]
  rw [hrun, hstream, runLoop_exn]
  refine ⟨rfl,
    { lastRunningDoc doc0 [] (pairs.map Prod.fst) with
      status := "error", error := some msg }, ?_, rfl, rfl⟩
  simp [List.getLast?_concat]

def c5State : AgentState := { company_name := some "Acme" }

def c5Env : RunEnv :=
  { request := .ok (some "job-1"), jobExists := true,
    stream := [StreamEv.ok "start" c5State, StreamEv.exn "boom"] }

theorem job_store_error_boundary_witness :
    (runJob c5Env {}).2 = { body := "Job failed", code := 200 } ∧
    ∃ d, (runJob c5Env {}).1.getLast? = some d ∧
      d.status = "error" ∧ d.error = some "boom" :=
  job_store_error_boundary c5Env {} "job-1" [("start", c5State)] "boom" []
    rfl (by decide) rfl rfl

/-- Claim C6: on a run in which every stage completes, one `status:
"running"` write is persisted immediately after each stage, carrying
the stage's name newly appended (document `i` holds exactly the first
`i + 1` stage names, in completion order); every persisted
`steps_complete` list is a prefix of every later one (monotone — a step
never disappears); with distinct stage names each name occurs exactly
once in the final list; and the only write with `status: "complete"` is
the last one, which carries the result fields of the final state in the
same merged write, so a reader never sees `complete` without the
stages' effects. -/
theorem job_store_monotone_progress (env : RunEnv) (doc0 : JobDoc) (jid : String)
    (pairs : List (String × AgentState))
    (hreq : env.request = .ok (some jid)) (hjid : jid ≠ "")
    (hex : env.jobExists = true) (hstream : env.stream = okStream pairs)
    (hdoc : doc0.steps_complete = [])
    (hnd : (pairs.map Prod.fst).Nodup) :
    (runJob env doc0).2 = { body := "Job completed successfully", code := 200 } ∧
    (runJob env doc0).1.length = pairs.length + 1 ∧
    (∀ (i : Nat) (d : JobDoc), (runJob env doc0).1[i]? = some d → i < pairs.length →
      d.status = "running" ∧
      d.steps_complete = (pairs.map Prod.fst).take (i + 1)) ∧
    (∀ (i j : Nat) (di dj : JobDoc), (runJob env doc0).1[i]? = some di →
      (runJob env doc0).1[j]? = some dj → i ≤ j →
      dj.steps_complete.take di.steps_complete.length = di.steps_complete) ∧
    (∀ (i : Nat) (d : JobDoc), (runJob env doc0).1[i]? = some d → d.status = "complete" →
      i = pairs.length) ∧
    (∀ (d : JobDoc), (runJob env doc0).1[pairs.length]? = some d →
      d.status = "complete" ∧ d.steps_complete = pairs.map Prod.fst ∧
      (∀ nm ∈ pairs.map Prod.fst, d.steps_complete.count nm = 1) ∧
      (∀ lp, pairs.getLast? = some lp →
        (lp.2.job_openings.isSome = true → d.job_openings = lp.2.job_openings) ∧
        (lp.2.linkedin_data.isSome = true → d.linkedin_data = lp.2.linkedin_data) ∧
        (lp.2.recent_news_summary.isSome = true →
          d.recent_news_summary = lp.2.recent_news_summary) ∧
        (lp.2.data_source.isSome = true → d.data_source = lp.2.data_source))) := by
  have hrun : runJob env doc0 = runLoop doc0 [] none env.stream := by
    simp [runJob, hreq, truthyOpt, hjid, hex]
  have htr : (runJob env doc0).1 =
      runningDocs doc0 [] (pairs.map Prod.fst) ++
        [applyComplete (lastRunningDoc doc0 [] (pairs.map Prod.fst))
          (pairs.foldl (fun _ p => some p.2) none)] := by
    rw [hrun, hstream, runLoop_ok]
  have hresp : (runJob env doc0).2 =
      { body := "Job completed successfully", code := 200 } := by
    rw [hrun, hstream, runLoop_ok]
  have hlen0 : (runningDocs doc0 [] (pairs.map Prod.fst)).length = pairs.length := by
    rw [runningDocs_length]; simp
  have hget_run : ∀ i, i < pairs.length →
      (runJob env doc0).1[i]? =
        some { doc0 with status := "running",
                         steps_complete := (pairs.map Prod.fst).take (i + 1) } := by
    intro i hi
    rw [htr, List.getElem?_append_left (by rw [hlen0]; exact hi)]
    have h := runningDocs_get (pairs.map Prod.fst) doc0 [] i (by simpa using hi)
    simpa using h
  have hget_fin : (runJob env doc0).1[pairs.length]? =
      some (applyComplete (lastRunningDoc doc0 [] (pairs.map Prod.fst))
        (pairs.foldl (fun _ p => some p.2) none)) := by
    rw [htr, List.getElem?_append_right (by rw [hlen0])]
    rw [hlen0]
    simp
  have hget_none : ∀ i, pairs.length < i → (runJob env doc0).1[i]? = none := by
    intro i hi
    rw [htr]
    apply List.getElem?_eq_none
    simp only [List.length_append, hlen0, List.length_singleton]
    omega
  have hfin_steps :
      (applyComplete (lastRunningDoc doc0 [] (pairs.map Prod.fst))
        (pairs.foldl (fun _ p => some p.2) none)).steps_complete =
      pairs.map Prod.fst := by
    rw [applyComplete_steps]
    cases hp : pairs with
    | nil => simpa [lastRunningDoc] using hdoc
    | cons a b =>
      rw [lastRunningDoc_ne_nil _ doc0 [] (by simp)]
      simp
  refine ⟨hresp, ?_, ?_, ?_, ?_, ?_⟩
  · rw [htr]; simp [hlen0]
  · intro i d hg hi
    rw [hget_run i hi] at hg
    obtain rfl := (Option.some.inj hg).symm
    exact ⟨rfl, rfl⟩
  · intro i j di dj hgi hgj hij
    have hnsl : (pairs.map Prod.fst).length = pairs.length := by simp
    have hi_le : i ≤ pairs.length := by
      by_contra h
      push_neg at h
      rw [hget_none i h] at hgi
      exact absurd hgi (by simp)
    have hj_le : j ≤ pairs.length := by
      by_contra h
      push_neg at h
      rw [hget_none j h] at hgj
      exact absurd hgj (by simp)
    rcases lt_or_eq_of_le hi_le with hi | hi
    · rw [hget_run i hi] at hgi
      obtain rfl := (Option.some.inj hgi).symm
      rcases lt_or_eq_of_le hj_le with hj | hj
      · rw [hget_run j hj] at hgj
        obtain rfl := (Option.some.inj hgj).symm
        show ((pairs.map Prod.fst).take (j + 1)).take
          ((pairs.map Prod.fst).take (i + 1)).length = (pairs.map Prod.fst).take (i + 1)
        rw [List.length_take, List.take_take]
        apply List.take_eq_take.mpr
        omega
      · subst hj
        rw [hget_fin] at hgj
        obtain rfl := (Option.some.inj hgj).symm
        show ((applyComplete _ _).steps_complete).take
          ((pairs.map Prod.fst).take (i + 1)).length = (pairs.map Prod.fst).take (i + 1)
        rw [hfin_steps, List.length_take]
        apply List.take_eq_take.mpr
        omega
    · subst hi
      have hj : j = pairs.length := le_antisymm hj_le hij
      subst hj
      rw [hget_fin] at hgi hgj
      obtain rfl := (Option.some.inj hgi).symm
      obtain rfl := (Option.some.inj hgj).symm
      exact List.take_length _
  · intro i d hg hstat
    rcases lt_trichotomy i pairs.length with hi | hi | hi
    · rw [hget_run i hi] at hg
      obtain rfl := (Option.some.inj hg).symm
      have hx : ("running" : String) = "complete" := hstat
      exact absurd hx (by decide)
    · exact hi
    · rw [hget_none i hi] at hg
      exact absurd hg (by simp)
  · intro d hg
    rw [hget_fin] at hg
    obtain rfl := (Option.some.inj hg).symm
    refine ⟨applyComplete_status _ _, hfin_steps, ?_, ?_⟩
    · intro nm hmem
      rw [hfin_steps]
      exact List.count_eq_one_of_mem hnd hmem
    · intro lp hlp
      have hffs : pairs.foldl (fun _ p => some p.2) none = some lp.2 := by
        rw [foldl_lastState, hlp]
      rw [hffs]
      refine ⟨fun h => ?_, fun h => ?_, fun h => ?_, fun h => ?_⟩ <;>
        simp [applyComplete, h]

def c6StateA : AgentState := { company_name := some "Acme" }

def c6StateB : AgentState :=
  { company_name := some "Acme", job_openings := some [],
    recent_news_summary := some "Recent news summary", data_source := some "linkedin" }

def c6Env : RunEnv :=
  { request := .ok (some "job-2"), jobExists := true,
    stream := okStream [("start", c6StateA), ("generate_final_report", c6StateB)] }

theorem job_store_monotone_progress_witness :
    (runJob c6Env {}).2 = { body := "Job completed successfully", code := 200 } ∧
    (runJob c6Env {}).1.length = 3 := by
  have h := job_store_monotone_progress c6Env {} "job-2"
    [("start", c6StateA), ("generate_final_report", c6StateB)]
    rfl (by decide) rfl rfl rfl (by decide)
  exact ⟨h.1, h.2.1⟩

def c9WSeed : AgentState :=
  { initial_input := some " Acme Robotics ",
    provided_url := some "https://www.linkedin.com/company/acme" }

theorem init_seed_parsing_amended_witness :
    (startNode c9WSeed).linkedin_url = some "https://www.linkedin.com/company/acme" ∧
    (startNode c9WSeed).website_url = none := by
  have h := ((init_seed_parsing_amended c9WSeed).2.2
    "https://www.linkedin.com/company/acme" rfl (by decide)).1 (by decide)
  exact ⟨h.1, h.2⟩
